import Mathlib

/-!
# Risk-scoring pipeline of the Hospital-Web-App repository

Shallow embedding of `src/ml-service/risk_prediction_service.py`
(class `RiskPredictionService`): data preprocessing (`preprocess_data`),
categorical encoding (`encode_features` with sklearn `LabelEncoder`
semantics), the rule-based heuristic scorer
(`_generate_realistic_risk_scores`), the prediction pipeline
(`predict_risk_scores`, `predict_single_record`) and the risk-level
classifier (`calculate_risk_level`).

Modelling choices:
* Python floats are embedded as exact rationals (`ℚ`); all the constants
  of the source (0.25, 0.01, 0.7, …) are written as the corresponding
  rationals.
* `pd.to_datetime` is external; an event carries `Option Timestamp`
  (`none` stands for an unparsable timestamp, which `pd.to_datetime`
  turns into `NaT` and `dropna` removes).  A parsed timestamp is
  represented by the fields the code reads from it (`dt.hour`,
  `dt.dayofweek`) plus its string form `repr` (used in the jitter seed
  `str(row['timestamp'])`).
* The fitted Isolation Forest is opaque: a `Service` carries its
  `decision_function` as an arbitrary function from the prepared
  feature row to a rational.  sklearn's `IsolationForest.predict`
  returns -1 exactly on rows with negative decision value, which is
  embedded in `outlierPred`.
* `random.seed(hash(username+timestamp+idx)); random.uniform(-0.05,0.05)`
  is external pseudo-randomness: it is embedded as a function
  `jitter : String → ℚ` of the seed string, passed as a parameter.
* Points where the Python code could raise inside the pipeline
  (`LabelEncoder.transform` on an unseen label) return `Option`;
  `predict_risk_scores` returns `Except String` so that the
  "not trained" `ValueError` is an explicit error value.
-/

/-! ## String helpers: Python's `sub in s` substring test -/

/-- `listStarts p l` holds when the character list `p` is an initial
segment of `l`. -/
def listStarts : List Char → List Char → Bool
  | [], _ => true
  | _ :: _, [] => false
  | p :: ps, c :: cs => if p = c then listStarts ps cs else false

/-- `listHasSub pat l`: `pat` occurs as a contiguous sublist of `l`. -/
def listHasSub (pat : List Char) : List Char → Bool
  | [] => pat.isEmpty
  | c :: cs => listStarts pat (c :: cs) || listHasSub pat cs

/-- Python's `pat in s` substring containment on strings. -/
def containsSub (s pat : String) : Bool := listHasSub pat.data s.data

/-- Python's `str.lower()` (ASCII case folding, written so that it
reduces definitionally on literals). -/
def strLower (s : String) : String := ⟨s.data.map Char.toLower⟩

/-- Membership of a string in a list (Python's `x in collection`). -/
def hasVal (v : String) : List String → Bool
  | [] => false
  | c :: cs => if c = v then true else hasVal v cs

/-- Index of the first occurrence of `v`, if any (position of a label in
a `LabelEncoder`'s `classes_` array). -/
def idxOf? (v : String) : List String → Option Nat
  | [] => none
  | c :: cs => if c = v then some 0 else (idxOf? v cs).map (· + 1)

/-! ## Data model -/

/-- The fields the code reads off a parsed `pd.Timestamp`:
`dt.hour`, `dt.dayofweek` (Monday = 0 … Sunday = 6) and its string
form (used in the jitter seed). -/
structure Timestamp where
  hour : Nat
  dayOfWeek : Nat
  repr : String
deriving DecidableEq, Repr

/-- A raw behavior event (one row of the input dataframe), with the
fields `risk_prediction_service.py` reads.  `timestamp = none` stands
for a value `pd.to_datetime(·, errors='coerce')` fails to parse. -/
structure Event where
  username : String
  user_role : String
  ip_address : String
  device_type : String
  timestamp : Option Timestamp
  action : String
  session_period : Int
deriving DecidableEq, Repr

/-! ## `preprocess_data` -/

/-- `sensitive_actions` list of `preprocess_data` (line 60). -/
def sensitive_actions : List String :=
  ["admin_access", "audit_log_access", "financial_report_access",
   "classified_data_access"]

/-- `failed_indicators` list of `preprocess_data` (line 66). -/
def failed_indicators : List String :=
  ["failed", "unauthorized", "denied", "error"]

/-- `any(sensitive in str(x).lower() for sensitive in sensitive_actions)`. -/
def isSensitiveAction (action : String) : Bool :=
  sensitive_actions.any (fun s => containsSub (strLower action) s)

/-- `any(indicator in str(x).lower() for indicator in failed_indicators)`. -/
def isFailedAction (action : String) : Bool :=
  failed_indicators.any (fun s => containsSub (strLower action) s)

/-- `categorize_session_length` of `preprocess_data` (lines 72-80);
`pd.isna` cannot hold for an integer period. -/
def categorize_session_length (period : Int) : String :=
  if period ≤ 0 then "short"
  else if period < 30 then "short"
  else if period < 120 then "medium"
  else "long"

/-- An event surviving `preprocess_data`, together with the derived
columns the code adds. -/
structure ProcessedEvent where
  event : Event
  ts : Timestamp
  hour : Nat
  day_of_week : Nat
  is_weekend : Bool
  is_business_hours : Bool
  is_sensitive_action : Bool
  is_failed_action : Bool
  session_length_category : String
deriving DecidableEq, Repr

/-- Row-wise effect of `preprocess_data` (lines 35-84): a row with an
unparsable timestamp is dropped (`none`), otherwise the derived columns
are added. -/
def preprocessEvent (e : Event) : Option ProcessedEvent :=
  match e.timestamp with
  | none => none
  | some ts => some
    { event := e
      ts := ts
      hour := ts.hour
      day_of_week := ts.dayOfWeek
      is_weekend := decide (5 ≤ ts.dayOfWeek)
      is_business_hours := decide (9 ≤ ts.hour ∧ ts.hour ≤ 17)
      is_sensitive_action := isSensitiveAction e.action
      is_failed_action := isFailedAction e.action
      session_length_category := categorize_session_length e.session_period }

/-- `preprocess_data` on a batch, keeping the original positional index
label of each surviving row (pandas `dropna` keeps index labels, and
`iterrows` later yields them as `idx`). -/
def preprocessFrom (i : Nat) : List Event → List (Nat × ProcessedEvent)
  | [] => []
  | e :: es =>
    match preprocessEvent e with
    | some p => (i, p) :: preprocessFrom (i + 1) es
    | none => preprocessFrom (i + 1) es

/-- `preprocess_data` applied to a freshly built dataframe (index 0,1,…). -/
def preprocess_data (events : List Event) : List (Nat × ProcessedEvent) :=
  preprocessFrom 0 events

/-! ## Heuristic scorer `_generate_realistic_risk_scores` (lines 244-355) -/

/-- Role increments (lines 255-265); the argument is already lowercased. -/
def roleScore (role : String) : ℚ :=
  if role = "admin" then 15/100
  else if role = "manager" then 10/100
  else if role = "doctor" then 8/100
  else if role = "nurse" then 5/100
  else if role = "guest" then 2/100
  else 0

/-- Action-keyword increments, the `elif` cascade of lines 269-286; the
argument is already lowercased.  Note the code tests `login`/
`authentication` *before* `financial`/`payment`. -/
def actionScore (action : String) : ℚ :=
  if containsSub action "delete" || containsSub action "remove" then 25/100
  else if containsSub action "admin" || containsSub action "config" ||
      containsSub action "settings" then 20/100
  else if containsSub action "export" || containsSub action "download" then 15/100
  else if containsSub action "audit" || containsSub action "log" then 12/100
  else if containsSub action "login" || containsSub action "authentication" then 8/100
  else if containsSub action "financial" || containsSub action "payment" then 18/100
  else if containsSub action "patient" || containsSub action "medical" ||
      containsSub action "record" then 10/100
  else if containsSub action "update" || containsSub action "modify" ||
      containsSub action "edit" then 12/100
  else if containsSub action "view" || containsSub action "read" ||
      containsSub action "navigate" then 3/100
  else 0

/-- Time-of-day increments (lines 297-307). -/
def timeScore (hour : Nat) : ℚ :=
  if 0 ≤ hour ∧ hour < 6 then 15/100
  else if 19 ≤ hour then 10/100
  else if 6 ≤ hour ∧ hour < 9 then 5/100
  else -(5/100)

/-- Device-type increments (lines 320-326); argument already lowercased. -/
def deviceScore (device : String) : ℚ :=
  if device = "new" ∨ device = "unknown" then 15/100
  else if device = "mobile" then 8/100
  else if device = "tablet" then 6/100
  else 0

/-- Session-duration increments (lines 329-335). -/
def sessionScore (period : Int) : ℚ :=
  if 240 < period then 10/100
  else if period < 5 then 8/100
  else if 120 < period then 5/100
  else 0

/-- Seed string of the jitter:
`str(row.get('username','')) + str(row.get('timestamp','')) + str(idx)`
(line 347). -/
def jitterSeed (p : ProcessedEvent) (idx : Nat) : String :=
  p.event.username ++ p.ts.repr ++ toString idx

/-- One iteration of `_generate_realistic_risk_scores` on row `p` with
dataframe index label `idx`.  `jitter` embeds the externally computed
`random.seed(hash(seed)); random.uniform(-0.05, 0.05)` value as a
function of the seed string. -/
def heuristicScore (jitter : String → ℚ) (idx : Nat) (p : ProcessedEvent) : ℚ :=
  let base : ℚ := 25/100
    + roleScore (strLower p.event.user_role)
    + actionScore (strLower p.event.action)
    + timeScore p.hour
    + (if p.is_weekend then 12/100 else 0)
    + deviceScore (strLower p.event.device_type)
    + sessionScore p.event.session_period
    + (if p.is_sensitive_action then 20/100 else 0)
    + (if p.is_failed_action then 25/100 else 0)
    + jitter (jitterSeed p idx)
  max (5/100) (min (95/100) base)

/-- `_generate_realistic_risk_scores` over a processed batch
(`for idx, row in df.iterrows()`). -/
def generate_realistic_risk_scores (jitter : String → ℚ)
    (rows : List (Nat × ProcessedEvent)) : List ℚ :=
  rows.map (fun r => heuristicScore jitter r.1 r.2)

/-! ## `encode_features` (lines 86-126) and `prepare_features` (128-151) -/

/-- Inference-time update of a fitted `LabelEncoder`'s `classes_`:
`'unknown'` is appended when absent (lines 115-119). -/
def extendClasses (classes : List String) : List String :=
  if hasVal "unknown" classes then classes else classes ++ ["unknown"]

/-- Inference-time encoding of a single value by a fitted encoder
(lines 109-121): a value outside `known_categories` is remapped to
`'unknown'`, then `LabelEncoder.transform` looks the value up in the
(possibly extended) `classes_`; `none` stands for the `ValueError`
sklearn raises on a label missing from `classes_`. -/
def encodeVal (classes : List String) (v : String) : Option Nat :=
  idxOf? (if hasVal v classes then v else "unknown") (extendClasses classes)

/-- First-seen deduplication of a column (category set of the
`pd.Categorical` fallback). -/
def firstSeen : List String → List String
  | [] => []
  | v :: vs => v :: (firstSeen vs).filter (fun x => decide (x ≠ v))

/-- `pd.Categorical(column).codes` fallback of line 124: an ad-hoc
per-batch code for `v`, stable only within this one batch. -/
def fallbackCode (column : List String) (v : String) : Int :=
  ((idxOf? v (firstSeen column)).getD 0 : Nat)

/-- `categorical_features` of `encode_features` (lines 93-97). -/
def categorical_features : List String :=
  ["user_role", "ip_address", "device_type", "action",
   "is_business_hours", "is_sensitive_action", "is_failed_action",
   "session_length_category"]

/-- `feature_columns` of `prepare_features` (lines 133-138); all twelve
are always present for a well-formed processed event. -/
def feature_columns : List String :=
  ["user_role", "ip_address", "device_type", "action",
   "hour", "day_of_week", "is_weekend", "is_business_hours",
   "is_sensitive_action", "is_failed_action", "session_period",
   "session_length_category"]

/-- `str(·)` form of a pandas 0/1 flag column. -/
def boolStr (b : Bool) : String := if b then "1" else "0"

/-- Raw string value (`astype(str)`) of a categorical feature column at
one row. -/
def catRaw (feat : String) (p : ProcessedEvent) : String :=
  if feat = "user_role" then p.event.user_role
  else if feat = "ip_address" then p.event.ip_address
  else if feat = "device_type" then p.event.device_type
  else if feat = "action" then p.event.action
  else if feat = "is_business_hours" then boolStr p.is_business_hours
  else if feat = "is_sensitive_action" then boolStr p.is_sensitive_action
  else if feat = "is_failed_action" then boolStr p.is_failed_action
  else p.session_length_category

/-- `self.label_encoders` lookup: the fitted `classes_` for a feature
name, if an encoder exists. -/
def lookupEnc (encs : List (String × List String)) (feat : String) :
    Option (List String) :=
  match encs with
  | [] => none
  | (n, cs) :: rest => if n = feat then some cs else lookupEnc rest feat

/-- Value of one feature column at one row after `encode_features`
(inference path, `fit_encoders=False`) and `prepare_features`:
categorical features go through the fitted encoder (or the
`pd.Categorical` per-batch fallback of line 124 when no encoder
exists); the numeric columns pass through unchanged. -/
def featVal (encs : List (String × List String))
    (rows : List ProcessedEvent) (p : ProcessedEvent) (feat : String) :
    Option Int :=
  if hasVal feat categorical_features then
    match lookupEnc encs feat with
    | some classes => (encodeVal classes (catRaw feat p)).map (fun n => (n : Int))
    | none => some (fallbackCode (rows.map (catRaw feat)) (catRaw feat p))
  else if feat = "hour" then some (p.hour : Int)
  else if feat = "day_of_week" then some (p.day_of_week : Int)
  else if feat = "is_weekend" then some (if p.is_weekend then 1 else 0)
  else some p.event.session_period

/-- Sequencing of per-element `Option` computations (a raising loop). -/
def optionMapList (f : α → Option β) : List α → Option (List β)
  | [] => some []
  | a :: as =>
    match f a, optionMapList f as with
    | some b, some bs => some (b :: bs)
    | _, _ => none

/-- One row of the prepared feature matrix `X`. -/
def prepareRow (encs : List (String × List String))
    (rows : List ProcessedEvent) (p : ProcessedEvent) : Option (List Int) :=
  optionMapList (featVal encs rows p) feature_columns

/-- The prepared feature matrix of `encode_features` +
`prepare_features` over a processed batch. -/
def prepareX (encs : List (String × List String))
    (rows : List ProcessedEvent) : Option (List (List Int)) :=
  optionMapList (prepareRow encs rows) rows

/-! ## `predict_risk_scores` (lines 192-242) -/

/-- The prediction-service state: fitted encoders, the trained flag and
the opaque fitted Isolation Forest `decision_function`. -/
structure Service where
  is_trained : Bool
  label_encoders : List (String × List String)
  decision : List Int → ℚ

/-- `iso_forest.predict`: -1 (anomaly) exactly where
`decision_function` is negative, 1 otherwise. -/
def outlierPred (svc : Service) (x : List Int) : Int :=
  if svc.decision x < 0 then -1 else 1

/-- `anomaly_scores.min()` of a nonempty batch. -/
def qMin : List ℚ → ℚ
  | [] => 0
  | x :: xs => xs.foldl min x

/-- `anomaly_scores.max()` of a nonempty batch. -/
def qMax : List ℚ → ℚ
  | [] => 0
  | x :: xs => xs.foldl max x

/-- Min-max normalization and inversion of the raw anomaly scores
(line 229): `1 - (s - min) / (max - min)`. -/
def normalizeScores (scores : List ℚ) : List ℚ :=
  scores.map (fun s => 1 - (s - qMin scores) / (qMax scores - qMin scores))

/-- The 70% / 30% blend of line 235. -/
def blendLists (normalized rule : List ℚ) : List ℚ :=
  List.zipWith (fun n r => 7/10 * n + 3/10 * r) normalized rule

/-- The outlier boost of lines 238-240: a flagged event's score becomes
`min(0.95, score * 1.3)`. -/
def boostOne (b : ℚ) (pred : Int) : ℚ :=
  if pred = -1 then min (95/100) (b * (13/10)) else b

/-- The boost loop applied over the blended scores. -/
def boostLists (blended : List ℚ) (preds : List Int) : List ℚ :=
  List.zipWith boostOne blended preds

/-- Pre-boost blended scores of the non-degenerate branch, as a function
of the service, batch and feature matrix. -/
def blendedOf (svc : Service) (jitter : String → ℚ) (events : List Event)
    (xs : List (List Int)) : List ℚ :=
  blendLists (normalizeScores (xs.map svc.decision))
    (generate_realistic_risk_scores jitter (preprocess_data events))

/-- Final scores of the non-degenerate branch (blend then boost). -/
def boostedOf (svc : Service) (jitter : String → ℚ) (events : List Event)
    (xs : List (List Int)) : List ℚ :=
  boostLists (blendedOf svc jitter events xs) (xs.map (outlierPred svc))

/-- The `ValueError` message of line 198. -/
def notTrainedMsg : String :=
  "Model is not trained. Please train the model first."

/-- `predict_risk_scores` (lines 192-242).  Raising is explicit:
`.error` for the untrained-model `ValueError`; the encoding step's
potential `ValueError` surfaces as `.error` when `prepareX` fails
(proved impossible below). -/
def predict_risk_scores (svc : Service) (jitter : String → ℚ)
    (events : List Event) : Except String (List ℚ) :=
  if svc.is_trained = false then .error notTrainedMsg
  else
    let rows := preprocess_data events
    if rows.isEmpty then .ok []
    else
      match prepareX svc.label_encoders (rows.map Prod.snd) with
      | none => .error "unseen label"
      | some xs =>
        let anomaly_scores := xs.map svc.decision
        if qMax anomaly_scores - qMin anomaly_scores < 1/100 then
          .ok (generate_realistic_risk_scores jitter rows)
        else
          .ok (boostedOf svc jitter events xs)

/-- `predict_single_record` (lines 357-364):
`risk_scores[0] if risk_scores else 0.5`. -/
def predict_single_record (svc : Service) (jitter : String → ℚ)
    (record : Event) : Except String ℚ :=
  match predict_risk_scores svc jitter [record] with
  | .error e => .error e
  | .ok scores => .ok (scores.headD (1/2))

/-- `calculate_risk_level` (lines 366-375). -/
def calculate_risk_level (risk_score : ℚ) : String :=
  if 7/10 ≤ risk_score then "high"
  else if 4/10 ≤ risk_score then "medium"
  else "low"

/-! ## Concrete fixtures used to instantiate the theorems -/

/-- A business-hours Tuesday timestamp. -/
def tsBiz : Timestamp := ⟨10, 1, "T"⟩

/-- A 2 AM Sunday timestamp. -/
def tsNight : Timestamp := ⟨2, 6, "S"⟩

/-- A low-risk event: nurse viewing a page during business hours. -/
def evNurse : Event :=
  ⟨"u", "nurse", "1.2.3.4", "desktop", some tsBiz, "view_page", 45⟩

/-- A high-risk event: admin deleting at 2 AM on a weekend from a new
device, sensitive and failed action keywords present. -/
def evHeavy : Event :=
  ⟨"u", "admin", "1.2.3.4", "new", some tsNight, "delete_admin_access_failed", 500⟩

/-- An event whose timestamp fails to parse. -/
def evBad : Event := ⟨"b", "guest", "9.9.9.9", "mobile", none, "login", 10⟩

/-- Zero jitter (a legal value of `random.uniform(-0.05, 0.05)`). -/
def jitter0 : String → ℚ := fun _ => 0

/-- A trained service whose model emits a constant raw score
(degenerate output) and has no fitted encoders. -/
def svcDeg : Service := ⟨true, [], fun _ => 0⟩

/-- A service that has never been trained. -/
def svcUntrained : Service := ⟨false, [], fun _ => 0⟩

/-- The prepared feature matrix of the batch `[evNurse]` under `svcDeg`. -/
def xsNurse : List (List Int) := [[0, 0, 0, 0, 10, 1, 0, 0, 0, 0, 45, 0]]

/-- The processed row `preprocess_data` derives from `evNurse`. -/
def pNurse : ProcessedEvent :=
  ⟨evNurse, tsBiz, 10, 1, false, true, false, false, "medium"⟩

/-! ## C3 — action-keyword priority order -/

/-- First-match evaluation of an ordered list of (keywords, increment)
categories against an action string: the increment of the first
category with a matching keyword applies, and nothing else. -/
def firstMatchScore (cats : List (List String × ℚ)) (action : String) : ℚ :=
  match cats with
  | [] => 0
  | (kws, inc) :: rest =>
    if kws.any (fun k => containsSub action k) then inc
    else firstMatchScore rest action

/-- The action categories in the order the code checks them
(lines 269-286). -/
def actionCategories : List (List String × ℚ) :=
  [(["delete", "remove"], 25/100),
   (["admin", "config", "settings"], 20/100),
   (["export", "download"], 15/100),
   (["audit", "log"], 12/100),
   (["login", "authentication"], 8/100),
   (["financial", "payment"], 18/100),
   (["patient", "medical", "record"], 10/100),
   (["update", "modify", "edit"], 12/100),
   (["view", "read", "navigate"], 3/100)]

/-- Modelled from the claim's words: the priority order asserted by the
claim, with `financial`/`payment` checked before
`login`/`authentication`. -/
def claimedActionCategories : List (List String × ℚ) :=
  [(["delete", "remove"], 25/100),
   (["admin", "config", "settings"], 20/100),
   (["export", "download"], 15/100),
   (["audit", "log"], 12/100),
   (["financial", "payment"], 18/100),
   (["patient", "medical", "record"], 10/100),
   (["update", "modify", "edit"], 12/100),
   (["login", "authentication"], 8/100),
   (["view", "read", "navigate"], 3/100)]

/-- C3 as stated: the scorer's action increment is first-match over the
claim's priority order. -/
def ClaimC3Prop : Prop :=
  ∀ action : String, actionScore action = firstMatchScore claimedActionCategories action

/-! ## C4 — the is_sensitive_action keyword set -/

/-- Modelled from the claim's words: the keyword set the claim asserts
for the sensitive-action flag. -/
def claimedSensitiveKeywords : List String :=
  ["admin", "delete", "export", "audit", "config", "classified", "financial"]

/-- C4 as stated: the derived flag holds iff the lowercased action
contains one of the claim's seven keywords. -/
def ClaimC4Prop : Prop :=
  ∀ (e : Event) (p : ProcessedEvent), preprocessEvent e = some p →
    (p.is_sensitive_action = true ↔
      claimedSensitiveKeywords.any (fun k => containsSub (strLower e.action) k) = true)

/-- A nurse deleting a record during business hours. -/
def evDel : Event :=
  ⟨"u", "nurse", "1.2.3.4", "desktop", some tsBiz, "delete_record", 45⟩

/-- The processed row `preprocess_data` derives from `evDel`. -/
def pDel : ProcessedEvent :=
  ⟨evDel, tsBiz, 10, 1, false, true, false, false, "medium"⟩

/-! ## C5 — row-index dependence of the jitter -/

/-- C5 as stated (its decisively refutable part): the heuristic
scorer's output for a fixed event does not depend on the row index,
for any jitter within the documented [−0.05, 0.05] range. -/
def ClaimC5Prop : Prop :=
  ∀ jitter : String → ℚ, (∀ s, -(1/20) ≤ jitter s ∧ jitter s ≤ 1/20) →
    ∀ (p : ProcessedEvent) (i j : Nat),
      heuristicScore jitter i p = heuristicScore jitter j p

/-- A legal jitter assignment that distinguishes the seed of
(`evNurse`, row 0) from every other seed. -/
def jitterIdx : String → ℚ := fun s => if s = "uT0" then 1/20 else 0

/-! ## C2 — the outlier boost against the pre-boost blended score -/

/-- C2 as stated: in the non-degenerate branch, every event the model
flags as an outlier keeps a post-boost score at least as large as its
pre-boost blended score. -/
def ClaimC2Prop : Prop :=
  ∀ (svc : Service) (jitter : String → ℚ) (events : List Event)
    (xs : List (List Int)),
    svc.is_trained = true →
    (∀ s, -(1/20) ≤ jitter s ∧ jitter s ≤ 1/20) →
    prepareX svc.label_encoders ((preprocess_data events).map Prod.snd) = some xs →
    ¬(qMax (xs.map svc.decision) - qMin (xs.map svc.decision) < 1/100) →
    ∀ i, i < (boostedOf svc jitter events xs).length →
      outlierPred svc (xs.getD i []) = -1 →
      (blendedOf svc jitter events xs).getD i 0 ≤
        (boostedOf svc jitter events xs).getD i 0

/-- A trained service (no fitted encoders) whose model's decision
value is negative exactly on rows with hour ≤ 2 (feature column 4). -/
def svcC2 : Service :=
  ⟨true, [], fun x => if x.getD 4 0 ≤ 2 then -1 else 1⟩

/-- The two-event batch used against C2. -/
def evs2 : List Event := [evHeavy, evNurse]

/-- The prepared feature matrix `prepareX` yields for `evs2` under
`svcC2` (per-batch fallback codes, since no encoder is fitted). -/
def xs2 : List (List Int) :=
  [[0, 0, 0, 0, 2, 6, 1, 0, 0, 0, 500, 0],
   [1, 0, 1, 1, 10, 1, 0, 1, 1, 1, 45, 1]]

/-- The processed row `preprocess_data` derives from `evHeavy`. -/
def pHeavy : ProcessedEvent :=
  ⟨evHeavy, tsNight, 2, 6, true, false, true, true, "long"⟩

/-! ## Lemmas and theorems -/

/-! ## Supporting lemmas -/

theorem idxOf?_isSome_of_hasVal (v : String) :
    ∀ l, hasVal v l = true → ∃ i, idxOf? v l = some i := by
  intro l
  induction l with
  | nil => intro h; simp [hasVal] at h
  | cons c cs ih =>
    intro h
    by_cases hc : c = v
    · exact ⟨0, by simp [idxOf?, hc]⟩
    · rw [hasVal, if_neg hc] at h
      obtain ⟨i, hi⟩ := ih h
      exact ⟨i + 1, by simp [idxOf?, hc, hi]⟩

theorem idxOf?_append_of_hasVal (v : String) (l' : List String) :
    ∀ l, hasVal v l = true → idxOf? v (l ++ l') = idxOf? v l := by
  intro l
  induction l with
  | nil => intro h; simp [hasVal] at h
  | cons c cs ih =>
    intro h
    by_cases hc : c = v
    · simp [idxOf?, hc]
    · rw [hasVal, if_neg hc] at h
      simp [idxOf?, hc, ih h]

theorem hasVal_append_right (v : String) (l l' : List String)
    (h : hasVal v l' = true) : hasVal v (l ++ l') = true := by
  induction l with
  | nil => simpa using h
  | cons c cs ih =>
    by_cases hc : c = v
    · simp [hasVal, hc]
    · simpa [hasVal, hc] using ih

theorem hasVal_extend_unknown (classes : List String) :
    hasVal "unknown" (extendClasses classes) = true := by
  unfold extendClasses
  split
  · assumption
  · exact hasVal_append_right _ _ _ (by simp [hasVal])

theorem hasVal_append_left (v : String) (l' : List String) :
    ∀ l, hasVal v l = true → hasVal v (l ++ l') = true := by
  intro l
  induction l with
  | nil => intro h; simp [hasVal] at h
  | cons c cs ih =>
    intro h
    by_cases hc : c = v
    · simp [hasVal, hc]
    · rw [hasVal, if_neg hc] at h
      simpa [hasVal, hc] using ih h

theorem hasVal_extend_of_hasVal (classes : List String) (v : String)
    (h : hasVal v classes = true) : hasVal v (extendClasses classes) = true := by
  unfold extendClasses
  split
  · exact h
  · exact hasVal_append_left _ _ _ h

theorem encodeVal_isSome (classes : List String) (v : String) :
    ∃ c, encodeVal classes v = some c := by
  unfold encodeVal
  by_cases hv : hasVal v classes = true
  · rw [if_pos hv]
    exact idxOf?_isSome_of_hasVal _ _ (hasVal_extend_of_hasVal _ _ hv)
  · rw [if_neg hv]
    exact idxOf?_isSome_of_hasVal _ _ (hasVal_extend_unknown _)

theorem featVal_isSome (encs : List (String × List String))
    (rows : List ProcessedEvent) (p : ProcessedEvent) (feat : String) :
    ∃ c, featVal encs rows p feat = some c := by
  unfold featVal
  split
  · cases h : lookupEnc encs feat with
    | some classes =>
      obtain ⟨c, hc⟩ := encodeVal_isSome classes (catRaw feat p)
      exact ⟨(c : Int), by simp [hc]⟩
    | none => exact ⟨_, rfl⟩
  · split
    · exact ⟨_, rfl⟩
    · split
      · exact ⟨_, rfl⟩
      · split
        · exact ⟨_, rfl⟩
        · exact ⟨_, rfl⟩

theorem optionMapList_isSome (f : α → Option β) :
    ∀ l : List α, (∀ a ∈ l, ∃ b, f a = some b) →
    ∃ ys, optionMapList f l = some ys := by
  intro l
  induction l with
  | nil => intro _; exact ⟨[], rfl⟩
  | cons a as ih =>
    intro h
    obtain ⟨b, hb⟩ := h a (by simp)
    obtain ⟨bs, hbs⟩ := ih (fun x hx => h x (by simp [hx]))
    exact ⟨b :: bs, by simp [optionMapList, hb, hbs]⟩

theorem optionMapList_length (f : α → Option β) :
    ∀ (l : List α) (ys : List β), optionMapList f l = some ys →
    ys.length = l.length := by
  intro l
  induction l with
  | nil => intro ys h; simp [optionMapList] at h; simp [← h]
  | cons a as ih =>
    intro ys h
    rw [optionMapList] at h
    cases hfa : f a with
    | none => rw [hfa] at h; cases h
    | some b =>
      rw [hfa] at h
      cases hrec : optionMapList f as with
      | none => rw [hrec] at h; cases h
      | some bs =>
        rw [hrec] at h
        cases h
        simp [ih bs hrec]

theorem prepareX_isSome (encs : List (String × List String))
    (rows : List ProcessedEvent) : ∃ xs, prepareX encs rows = some xs := by
  apply optionMapList_isSome
  intro p _
  apply optionMapList_isSome
  intro feat _
  exact featVal_isSome encs rows p feat

theorem prepareX_length (encs : List (String × List String))
    (rows : List ProcessedEvent) (xs : List (List Int))
    (h : prepareX encs rows = some xs) : xs.length = rows.length :=
  optionMapList_length _ _ _ h

theorem foldl_min_le_init (xs : List ℚ) : ∀ a : ℚ, xs.foldl min a ≤ a := by
  induction xs with
  | nil => intro a; simp
  | cons x xs ih =>
    intro a
    calc (x :: xs).foldl min a = xs.foldl min (min a x) := by simp [List.foldl]
      _ ≤ min a x := ih (min a x)
      _ ≤ a := min_le_left _ _

theorem foldl_min_le_mem (xs : List ℚ) :
    ∀ (a b : ℚ), b ∈ xs → xs.foldl min a ≤ b := by
  induction xs with
  | nil => intro a b h; simp at h
  | cons x xs ih =>
    intro a b h
    rcases List.mem_cons.1 h with rfl | hb
    · calc (b :: xs).foldl min a = xs.foldl min (min a b) := by simp [List.foldl]
        _ ≤ min a b := foldl_min_le_init _ _
        _ ≤ b := min_le_right _ _
    · exact ih (min a x) b hb

theorem qMin_le (scores : List ℚ) (s : ℚ) (h : s ∈ scores) :
    qMin scores ≤ s := by
  cases scores with
  | nil => simp at h
  | cons x xs =>
    rcases List.mem_cons.1 h with rfl | hs
    · exact foldl_min_le_init _ _
    · exact foldl_min_le_mem _ _ _ hs

theorem le_foldl_max_init (xs : List ℚ) : ∀ a : ℚ, a ≤ xs.foldl max a := by
  induction xs with
  | nil => intro a; simp
  | cons x xs ih =>
    intro a
    calc a ≤ max a x := le_max_left _ _
      _ ≤ xs.foldl max (max a x) := ih (max a x)
      _ = (x :: xs).foldl max a := by simp [List.foldl]

theorem le_foldl_max_mem (xs : List ℚ) :
    ∀ (a b : ℚ), b ∈ xs → b ≤ xs.foldl max a := by
  induction xs with
  | nil => intro a b h; simp at h
  | cons x xs ih =>
    intro a b h
    rcases List.mem_cons.1 h with rfl | hb
    · calc b ≤ max a b := le_max_right _ _
        _ ≤ xs.foldl max (max a b) := le_foldl_max_init _ _
        _ = (b :: xs).foldl max a := by simp [List.foldl]
    · exact ih (max a x) b hb

theorem le_qMax (scores : List ℚ) (s : ℚ) (h : s ∈ scores) :
    s ≤ qMax scores := by
  cases scores with
  | nil => simp at h
  | cons x xs =>
    rcases List.mem_cons.1 h with rfl | hs
    · exact le_foldl_max_init _ _
    · exact le_foldl_max_mem _ _ _ hs

theorem mem_zipWith {f : α → β → γ} :
    ∀ {l1 : List α} {l2 : List β} {x : γ}, x ∈ List.zipWith f l1 l2 →
    ∃ a ∈ l1, ∃ b ∈ l2, x = f a b := by
  intro l1
  induction l1 with
  | nil => intro l2 x h; simp at h
  | cons a as ih =>
    intro l2 x h
    cases l2 with
    | nil => simp at h
    | cons b bs =>
      rcases List.mem_cons.1 h with rfl | hx
      · exact ⟨a, by simp, b, by simp, rfl⟩
      · obtain ⟨a', ha', b', hb', hx'⟩ := ih hx
        exact ⟨a', by simp [ha'], b', by simp [hb'], hx'⟩

theorem getD_zipWith {f : α → β → γ} :
    ∀ (l1 : List α) (l2 : List β) (i : Nat), i < (List.zipWith f l1 l2).length →
    ∀ (d : γ) (d1 : α) (d2 : β),
    (List.zipWith f l1 l2).getD i d = f (l1.getD i d1) (l2.getD i d2) := by
  intro l1
  induction l1 with
  | nil => intro l2 i h; simp at h
  | cons a as ih =>
    intro l2 i h d d1 d2
    cases l2 with
    | nil => simp at h
    | cons b bs =>
      cases i with
      | zero => rfl
      | succ n =>
        simp only [List.zipWith, List.length_cons, Nat.succ_lt_succ_iff] at h
        simpa [List.getD] using ih bs n h d d1 d2

theorem getD_map {f : α → β} :
    ∀ (l : List α) (i : Nat), i < l.length → ∀ (d : β) (d' : α),
    (l.map f).getD i d = f (l.getD i d') := by
  intro l
  induction l with
  | nil => intro i h; simp at h
  | cons a as ih =>
    intro i h d d'
    cases i with
    | zero => rfl
    | succ n =>
      simp only [List.length_cons, Nat.succ_lt_succ_iff] at h
      simpa [List.getD] using ih n h d d'

theorem getD_mem : ∀ (l : List α) (i : Nat), i < l.length → ∀ d : α,
    l.getD i d ∈ l := by
  intro l i h d
  rw [List.getD_eq_getElem l d h]
  exact List.getElem_mem h

theorem heuristicScore_lb (jitter : String → ℚ) (idx : Nat)
    (p : ProcessedEvent) : 1/20 ≤ heuristicScore jitter idx p := by
  unfold heuristicScore
  calc (1/20 : ℚ) = 5/100 := by norm_num
    _ ≤ max (5/100) _ := le_max_left _ _

theorem heuristicScore_ub (jitter : String → ℚ) (idx : Nat)
    (p : ProcessedEvent) : heuristicScore jitter idx p ≤ 19/20 := by
  unfold heuristicScore
  apply max_le
  · norm_num
  · calc min (95/100 : ℚ) _ ≤ 95/100 := min_le_left _ _
      _ ≤ 19/20 := by norm_num

theorem generate_mem_bounds (jitter : String → ℚ)
    (rows : List (Nat × ProcessedEvent)) (r : ℚ)
    (h : r ∈ generate_realistic_risk_scores jitter rows) :
    1/20 ≤ r ∧ r ≤ 19/20 := by
  obtain ⟨⟨i, p⟩, _, rfl⟩ := List.mem_map.1 h
  exact ⟨heuristicScore_lb _ _ _, heuristicScore_ub _ _ _⟩

theorem normalize_mem_bounds (scores : List ℚ)
    (hdeg : ¬(qMax scores - qMin scores < 1/100)) (n : ℚ)
    (h : n ∈ normalizeScores scores) : 0 ≤ n ∧ n ≤ 1 := by
  push_neg at hdeg
  have hpos : 0 < qMax scores - qMin scores := lt_of_lt_of_le (by norm_num) hdeg
  obtain ⟨s, hs, rfl⟩ := List.mem_map.1 h
  have h1 : 0 ≤ (s - qMin scores) / (qMax scores - qMin scores) :=
    div_nonneg (sub_nonneg.2 (qMin_le scores s hs)) (le_of_lt hpos)
  have h2 : (s - qMin scores) / (qMax scores - qMin scores) ≤ 1 :=
    (div_le_one hpos).2 (by linarith [le_qMax scores s hs])
  constructor <;> linarith

theorem blend_mem_bounds (jitter : String → ℚ) (svc : Service)
    (events : List Event) (xs : List (List Int))
    (hdeg : ¬(qMax (xs.map svc.decision) - qMin (xs.map svc.decision) < 1/100))
    (b : ℚ) (h : b ∈ blendedOf svc jitter events xs) : 0 ≤ b ∧ b ≤ 1 := by
  obtain ⟨n, hn, r, hr, rfl⟩ := mem_zipWith h
  obtain ⟨hn0, hn1⟩ := normalize_mem_bounds _ hdeg n hn
  obtain ⟨hr0, hr1⟩ := generate_mem_bounds _ _ r hr
  constructor <;> linarith

theorem boostOne_bounds (b : ℚ) (pred : Int) (hb0 : 0 ≤ b) (hb1 : b ≤ 1) :
    0 ≤ boostOne b pred ∧ boostOne b pred ≤ 1 := by
  unfold boostOne
  split
  · constructor
    · exact le_min (by norm_num) (by linarith)
    · calc min (95/100 : ℚ) (b * (13/10)) ≤ 95/100 := min_le_left _ _
        _ ≤ 1 := by norm_num
  · exact ⟨hb0, hb1⟩

/-- **C8** — For every valid event, the Heuristic Scorer's output lies in
[0.05, 0.95]; and every score returned by `predict_risk_scores`
(in particular every score of the blended Anomaly-Model path) lies in
[0, 1]. -/
theorem C8_score_ranges :
    (∀ (jitter : String → ℚ) (idx : Nat) (p : ProcessedEvent),
      1/20 ≤ heuristicScore jitter idx p ∧ heuristicScore jitter idx p ≤ 19/20) ∧
    (∀ (svc : Service) (jitter : String → ℚ) (events : List Event)
      (res : List ℚ), predict_risk_scores svc jitter events = .ok res →
      ∀ x ∈ res, 0 ≤ x ∧ x ≤ 1) := by
  constructor
  · exact fun jitter idx p => ⟨heuristicScore_lb _ _ _, heuristicScore_ub _ _ _⟩
  · intro svc jitter events res h x hx
    unfold predict_risk_scores at h
    split at h
    · cases h
    · by_cases he : (preprocess_data events).isEmpty
      · rw [if_pos he] at h
        cases h
        simp at hx
      · rw [if_neg he] at h
        obtain ⟨xs, hxs⟩ :=
          prepareX_isSome svc.label_encoders ((preprocess_data events).map Prod.snd)
        rw [hxs] at h
        simp only at h
        by_cases hdeg : qMax (xs.map svc.decision) - qMin (xs.map svc.decision) < 1/100
        · rw [if_pos hdeg] at h
          cases h
          obtain ⟨h1, h2⟩ := generate_mem_bounds jitter _ x hx
          constructor <;> linarith
        · rw [if_neg hdeg] at h
          cases h
          obtain ⟨b, hb, pred, hpred, rfl⟩ := mem_zipWith hx
          obtain ⟨hb0, hb1⟩ := blend_mem_bounds jitter svc events xs hdeg b hb
          exact boostOne_bounds b pred hb0 hb1

/-! ## C1 — degenerate-output bypass -/

theorem predict_degenerate (svc : Service) (jitter : String → ℚ)
    (events : List Event) (xs : List (List Int))
    (ht : svc.is_trained = true)
    (hx : prepareX svc.label_encoders ((preprocess_data events).map Prod.snd) = some xs)
    (hdeg : qMax (xs.map svc.decision) - qMin (xs.map svc.decision) < 1/100) :
    predict_risk_scores svc jitter events =
      .ok (generate_realistic_risk_scores jitter (preprocess_data events)) := by
  unfold predict_risk_scores
  rw [if_neg (by simp [ht])]
  by_cases he : (preprocess_data events).isEmpty
  · rw [if_pos he, List.isEmpty_iff.1 he]
    rfl
  · rw [if_neg he]
    simp only [hx]
    rw [if_pos hdeg]

/-- **C1** — If the batch's raw Isolation-Forest score range is below the
epsilon 0.01 (in particular whenever all raw scores are equal),
`predict_risk_scores` returns exactly the heuristic scorer's output for
every event, with no blending and no boosting. -/
theorem C1_degenerate_bypass (svc : Service) (jitter : String → ℚ)
    (events : List Event) (xs : List (List Int))
    (ht : svc.is_trained = true)
    (hx : prepareX svc.label_encoders ((preprocess_data events).map Prod.snd) = some xs)
    (hdeg : qMax (xs.map svc.decision) - qMin (xs.map svc.decision) < 1/100) :
    predict_risk_scores svc jitter events =
      .ok (generate_realistic_risk_scores jitter (preprocess_data events)) :=
  predict_degenerate svc jitter events xs ht hx hdeg

theorem C1_witness :
    predict_risk_scores svcDeg jitter0 [evNurse] =
      .ok (generate_realistic_risk_scores jitter0 (preprocess_data [evNurse])) :=
  C1_degenerate_bypass svcDeg jitter0 [evNurse] xsNurse rfl (by decide)
    (by norm_num [xsNurse, svcDeg, qMax, qMin])

/-! ## C7 — error propagation policy -/

theorem predict_untrained_error (svc : Service) (jitter : String → ℚ)
    (events : List Event) (h : svc.is_trained = false) :
    predict_risk_scores svc jitter events = .error notTrainedMsg := by
  unfold predict_risk_scores
  rw [if_pos h]

theorem predict_trained_ok (svc : Service) (jitter : String → ℚ)
    (events : List Event) (h : svc.is_trained = true) :
    ∃ res, predict_risk_scores svc jitter events = .ok res := by
  unfold predict_risk_scores
  rw [if_neg (by simp [h])]
  by_cases he : (preprocess_data events).isEmpty
  · rw [if_pos he]
    exact ⟨[], rfl⟩
  · rw [if_neg he]
    obtain ⟨xs, hxs⟩ :=
      prepareX_isSome svc.label_encoders ((preprocess_data events).map Prod.snd)
    simp only [hxs]
    by_cases hdeg : qMax (xs.map svc.decision) - qMin (xs.map svc.decision) < 1/100
    · rw [if_pos hdeg]
      exact ⟨_, rfl⟩
    · rw [if_neg hdeg]
      exact ⟨_, rfl⟩

/-- **C7** — `predict_risk_scores` fails exactly when the model is
untrained: an untrained service yields the "not trained" error, while a
trained service always produces a list of predictions (the unknown-label,
missing-encoder and degenerate-output conditions never surface as
errors; unparsable timestamps only shrink the batch). -/
theorem C7_error_policy :
    (∀ (svc : Service) (jitter : String → ℚ) (events : List Event),
      svc.is_trained = false →
      predict_risk_scores svc jitter events = .error notTrainedMsg) ∧
    (∀ (svc : Service) (jitter : String → ℚ) (events : List Event),
      svc.is_trained = true →
      ∃ res, predict_risk_scores svc jitter events = .ok res) :=
  ⟨fun svc jitter events h => predict_untrained_error svc jitter events h,
   fun svc jitter events h => predict_trained_ok svc jitter events h⟩

theorem C7_witness :
    predict_risk_scores svcUntrained jitter0 [evNurse] = .error notTrainedMsg ∧
    ∃ res, predict_risk_scores svcDeg jitter0 [evNurse] = .ok res :=
  ⟨C7_error_policy.1 svcUntrained jitter0 [evNurse] rfl,
   C7_error_policy.2 svcDeg jitter0 [evNurse] rfl⟩

/-! ## C10 — single unparsable record defaults to 0.5 -/

/-- **C10** — For a trained model, `predict_single_record` on a record
whose timestamp fails to parse does not raise and silently returns the
default score 0.5, which classifies as "medium". -/
theorem C10_single_default (svc : Service) (jitter : String → ℚ)
    (record : Event) (ht : svc.is_trained = true)
    (hbad : record.timestamp = none) :
    predict_single_record svc jitter record = .ok (1/2) ∧
    calculate_risk_level (1/2) = "medium" := by
  have hrows : preprocess_data [record] = [] := by
    simp [preprocess_data, preprocessFrom, preprocessEvent, hbad]
  have h0 : predict_risk_scores svc jitter [record] = .ok [] := by
    unfold predict_risk_scores
    rw [if_neg (by simp [ht])]
    simp [hrows]
  constructor
  · rw [predict_single_record, h0]
    rfl
  · unfold calculate_risk_level
    norm_num

theorem C10_witness :
    predict_single_record svcDeg jitter0 evBad = .ok (1/2) ∧
    calculate_risk_level (1/2) = "medium" :=
  C10_single_default svcDeg jitter0 evBad rfl rfl

theorem C8_witness :
    (1/20 ≤ heuristicScore jitter0 0 pNurse ∧
      heuristicScore jitter0 0 pNurse ≤ 19/20) ∧
    (0 ≤ heuristicScore jitter0 0 pNurse ∧
      heuristicScore jitter0 0 pNurse ≤ 1) := by
  have h : predict_risk_scores svcDeg jitter0 [evNurse] =
      .ok (generate_realistic_risk_scores jitter0 (preprocess_data [evNurse])) :=
    predict_degenerate svcDeg jitter0 [evNurse] xsNurse rfl (by decide)
      (by norm_num [xsNurse, svcDeg, qMax, qMin])
  have hg : generate_realistic_risk_scores jitter0 (preprocess_data [evNurse]) =
      [heuristicScore jitter0 0 pNurse] := rfl
  refine ⟨C8_score_ranges.1 jitter0 0 pNurse, ?_⟩
  exact C8_score_ranges.2 svcDeg jitter0 [evNurse] _ h
    (heuristicScore jitter0 0 pNurse) (by rw [hg]; exact List.mem_singleton.mpr rfl)

/-! ## C9 — unparsable rows are dropped, order preserved -/

theorem preprocessFrom_map_event :
    ∀ (events : List Event) (i : Nat),
    (preprocessFrom i events).map (fun r => r.2.event) =
      events.filter (fun e => e.timestamp.isSome) := by
  intro events
  induction events with
  | nil => intro i; rfl
  | cons e es ih =>
    intro i
    cases hts : e.timestamp with
    | none =>
      simp [preprocessFrom, preprocessEvent, hts, List.filter_cons, ih]
    | some ts =>
      simp [preprocessFrom, preprocessEvent, hts, List.filter_cons, ih]

/-- **C9** — On a trained model, prediction on a batch of `n` events of
which `k` have unparsable timestamps yields exactly `n − k` scores, one
per parsable event; the surviving rows are exactly the parsable input
events in their original relative order. -/
theorem C9_drop_unparsable (svc : Service) (jitter : String → ℚ)
    (events : List Event) (ht : svc.is_trained = true) :
    ∃ res, predict_risk_scores svc jitter events = .ok res ∧
      res.length = (events.filter (fun e => e.timestamp.isSome)).length ∧
      (preprocess_data events).map (fun r => r.2.event) =
        events.filter (fun e => e.timestamp.isSome) := by
  have hmap := preprocessFrom_map_event events 0
  have hlen : (preprocess_data events).length =
      (events.filter (fun e => e.timestamp.isSome)).length := by
    rw [← hmap, List.length_map]
    rfl
  obtain ⟨res, hres⟩ := predict_trained_ok svc jitter events ht
  refine ⟨res, hres, ?_, hmap⟩
  rw [← hlen]
  unfold predict_risk_scores at hres
  rw [if_neg (by simp [ht])] at hres
  by_cases he : (preprocess_data events).isEmpty
  · rw [if_pos he] at hres
    cases hres
    simp [List.isEmpty_iff.1 he]
  · rw [if_neg he] at hres
    obtain ⟨xs, hxs⟩ :=
      prepareX_isSome svc.label_encoders ((preprocess_data events).map Prod.snd)
    rw [hxs] at hres
    simp only at hres
    have hxlen : xs.length = (preprocess_data events).length := by
      rw [prepareX_length _ _ _ hxs, List.length_map]
    by_cases hdeg : qMax (xs.map svc.decision) - qMin (xs.map svc.decision) < 1/100
    · rw [if_pos hdeg] at hres
      cases hres
      simp [generate_realistic_risk_scores]
    · rw [if_neg hdeg] at hres
      cases hres
      unfold boostedOf boostLists blendedOf blendLists normalizeScores
        generate_realistic_risk_scores
      simp [List.length_zipWith, List.length_map, hxlen]

theorem C9_witness :
    ∃ res, predict_risk_scores svcDeg jitter0 [evNurse, evBad, evHeavy] = .ok res ∧
      res.length =
        ([evNurse, evBad, evHeavy].filter (fun e => e.timestamp.isSome)).length ∧
      (preprocess_data [evNurse, evBad, evHeavy]).map (fun r => r.2.event) =
        [evNurse, evBad, evHeavy].filter (fun e => e.timestamp.isSome) :=
  C9_drop_unparsable svcDeg jitter0 [evNurse, evBad, evHeavy] rfl

/-! ## C6 — unknown-value handling of the fitted encoders -/

/-- **C6** — Inference-time encoding with a fitted encoder never fails:
every value gets a code; all values outside the fitted vocabulary map
to the same reserved "unknown" code; when "unknown" is not yet in the
vocabulary it is added on demand, growing the vocabulary by exactly
one; and every fitted value keeps its original code. -/
theorem C6_unknown_handling (classes : List String) (v w : String) :
    (∃ c, encodeVal classes v = some c) ∧
    (hasVal v classes = false → hasVal w classes = false →
      encodeVal classes v = encodeVal classes w) ∧
    (hasVal "unknown" classes = false →
      (extendClasses classes).length = classes.length + 1) ∧
    (∀ u, hasVal u classes = true → encodeVal classes u = idxOf? u classes) := by
  refine ⟨encodeVal_isSome classes v, ?_, ?_, ?_⟩
  · intro hv hw
    unfold encodeVal
    rw [if_neg (by simp [hv]), if_neg (by simp [hw])]
  · intro hu
    unfold extendClasses
    rw [if_neg (by simp [hu])]
    simp
  · intro u hu
    unfold encodeVal
    rw [if_pos hu]
    unfold extendClasses
    split
    · rfl
    · exact idxOf?_append_of_hasVal u ["unknown"] classes hu

theorem C6_witness :
    (∃ c, encodeVal ["a", "b"] "x" = some c) ∧
    encodeVal ["a", "b"] "x" = encodeVal ["a", "b"] "y" ∧
    (extendClasses ["a", "b"]).length = ["a", "b"].length + 1 ∧
    encodeVal ["a", "b"] "a" = idxOf? "a" ["a", "b"] := by
  obtain ⟨h1, h2, h3, h4⟩ := C6_unknown_handling ["a", "b"] "x" "y"
  exact ⟨h1, h2 rfl rfl, h3 rfl, h4 "a" rfl⟩

/-- **C3 (counterexample)** — The claim's priority order is wrong: on
the action "financial_authentication" the code awards the
login/authentication increment 0.08 (checked fifth, at line 277),
not the claimed financial/payment increment 0.18. -/
theorem C3_counterexample : ¬ ClaimC3Prop := by
  intro h
  have h8 : actionScore "financial_authentication" = 8/100 := rfl
  have h18 : firstMatchScore claimedActionCategories "financial_authentication" =
      18/100 := rfl
  have := h "financial_authentication"
  rw [h8, h18] at this
  norm_num at this

/-- **C3 (amended)** — For every action string, exactly the first
matching category in the code's priority order applies: delete/remove
0.25, admin/config/settings 0.20, export/download 0.15, audit/log 0.12,
login/authentication 0.08, financial/payment 0.18,
patient/medical/record 0.10, update/modify/edit 0.12,
view/read/navigate 0.03. -/
theorem C3_first_match_amended :
    ∀ action : String, actionScore action = firstMatchScore actionCategories action := by
  intro action
  simp only [actionScore, firstMatchScore, actionCategories, List.any_cons,
    List.any_nil, Bool.or_false, Bool.or_assoc]

/-- **C4 (counterexample)** — On the action "delete_record" the claim's
keyword set ("delete" matches) asserts the flag, but the code's list of
full phrases (`admin_access`, `audit_log_access`,
`financial_report_access`, `classified_data_access`) matches nothing,
so preprocessing leaves the flag clear. -/
theorem C4_counterexample : ¬ ClaimC4Prop := by
  intro h
  have hiff := h evDel pDel rfl
  have hr : claimedSensitiveKeywords.any
      (fun k => containsSub (strLower evDel.action) k) = true := rfl
  exact absurd (hiff.mpr hr) (by decide)

/-- **C4 (amended)** — The derived `is_sensitive_action` flag is set iff
the lowercased action contains one of the four phrases `admin_access`,
`audit_log_access`, `financial_report_access`, `classified_data_access`
as a substring. -/
theorem C4_sensitive_flag_amended (e : Event) (p : ProcessedEvent)
    (hp : preprocessEvent e = some p) :
    p.is_sensitive_action = true ↔
      sensitive_actions.any (fun k => containsSub (strLower e.action) k) = true := by
  cases hts : e.timestamp with
  | none => rw [preprocessEvent, hts] at hp; cases hp
  | some ts =>
    rw [preprocessEvent, hts] at hp
    cases hp
    exact Iff.rfl

theorem C4_witness :
    pDel.is_sensitive_action = true ↔
      sensitive_actions.any (fun k => containsSub (strLower evDel.action) k) = true :=
  C4_sensitive_flag_amended evDel pDel rfl

/-- **C5 (counterexample)** — The jitter seed string is
`username + str(timestamp) + str(idx)`, so the heuristic score of one
and the same event can change with its row index: with a legal jitter
assignment, `evNurse` scores 0.33 at row 0 and 0.28 at row 1. -/
theorem C5_counterexample : ¬ ClaimC5Prop := by
  intro h
  have hb : ∀ s, -(1/20 : ℚ) ≤ jitterIdx s ∧ jitterIdx s ≤ 1/20 := by
    intro s
    unfold jitterIdx
    split <;> constructor <;> norm_num
  have heq := h jitterIdx hb pNurse 0 1
  have h0 : heuristicScore jitterIdx 0 pNurse =
      max (5/100) (min (95/100)
        (25/100 + 5/100 + 3/100 + -(5/100) + 0 + 0 + 0 + 0 + 0 + 1/20)) := rfl
  have h1 : heuristicScore jitterIdx 1 pNurse =
      max (5/100) (min (95/100)
        (25/100 + 5/100 + 3/100 + -(5/100) + 0 + 0 + 0 + 0 + 0 + 0)) := rfl
  rw [h0, h1] at heq
  norm_num at heq

/-- **C5 (amended)** — The heuristic score depends on the row index only
through the jitter term: whenever the jitter values at the seeds for
indices `i` and `j` coincide, the score is identical; it is not
position-independent in general, because the jitter seed includes the
row index. -/
theorem C5_jitter_seed_dependence (jitter : String → ℚ) (p : ProcessedEvent)
    (i j : Nat) (h : jitter (jitterSeed p i) = jitter (jitterSeed p j)) :
    heuristicScore jitter i p = heuristicScore jitter j p := by
  unfold heuristicScore
  rw [h]

theorem C5_witness :
    heuristicScore jitter0 0 pNurse = heuristicScore jitter0 5 pNurse :=
  C5_jitter_seed_dependence jitter0 pNurse 0 5 rfl

theorem svcC2_prepare :
    prepareX svcC2.label_encoders ((preprocess_data evs2).map Prod.snd) =
      some xs2 := by decide

theorem svcC2_scores : xs2.map svcC2.decision = [-1, 1] := by decide

theorem svcC2_nondeg :
    ¬(qMax (xs2.map svcC2.decision) - qMin (xs2.map svcC2.decision) < 1/100) := by
  rw [svcC2_scores]
  norm_num [qMax, qMin, List.foldl]

theorem svcC2_len : 0 < (boostedOf svcC2 jitter0 evs2 xs2).length := by decide

theorem svcC2_pred0 : outlierPred svcC2 (xs2.getD 0 []) = -1 := by decide

theorem heavy_heuristic : heuristicScore jitter0 0 pHeavy = 19/20 := by
  have h : heuristicScore jitter0 0 pHeavy =
      max (5/100) (min (95/100)
        (25/100 + 15/100 + 25/100 + 15/100 + 12/100 + 15/100 + 10/100 +
          20/100 + 25/100 + 0)) := rfl
  rw [h]
  norm_num

theorem nurse_heuristic : heuristicScore jitter0 1 pNurse = 7/25 := by
  have h : heuristicScore jitter0 1 pNurse =
      max (5/100) (min (95/100)
        (25/100 + 5/100 + 3/100 + -(5/100) + 0 + 0 + 0 + 0 + 0 + 0)) := rfl
  rw [h]
  norm_num

theorem blended2_eval :
    blendedOf svcC2 jitter0 evs2 xs2 = [197/200, 21/250] := by
  have hgen : generate_realistic_risk_scores jitter0 (preprocess_data evs2) =
      [heuristicScore jitter0 0 pHeavy, heuristicScore jitter0 1 pNurse] := rfl
  have hnorm : normalizeScores (xs2.map svcC2.decision) = [1, 0] := by
    rw [normalizeScores, svcC2_scores]
    norm_num [qMax, qMin, List.foldl]
  unfold blendedOf blendLists
  rw [hnorm, hgen, heavy_heuristic, nurse_heuristic]
  norm_num

theorem boosted2_eval :
    boostedOf svcC2 jitter0 evs2 xs2 = [19/20, 21/250] := by
  have hpreds : xs2.map (outlierPred svcC2) = [-1, 1] := by decide
  unfold boostedOf boostLists
  rw [blended2_eval, hpreds]
  simp only [List.zipWith, boostOne]
  norm_num

/-- **C2 (counterexample)** — The boosted score can DROP below the
pre-boost blended score: on `evs2` under `svcC2`, the flagged event's
blended score is 0.985 (normalized model score 1, heuristic 0.95), and
the 0.95 cap pulls the boosted score down to 0.95 < 0.985. -/
theorem C2_counterexample : ¬ ClaimC2Prop := by
  intro h
  have hb : ∀ s, -(1/20 : ℚ) ≤ jitter0 s ∧ jitter0 s ≤ 1/20 :=
    fun s => ⟨by norm_num [jitter0], by norm_num [jitter0]⟩
  have hres := h svcC2 jitter0 evs2 xs2 rfl hb svcC2_prepare svcC2_nondeg 0
    svcC2_len svcC2_pred0
  rw [blended2_eval, boosted2_eval] at hres
  norm_num [List.getD] at hres

/-- **C2 (amended)** — In the non-degenerate branch, for every flagged
event the post-boost score is at least `min(0.95, pre-boost blended)`
and at most 0.95; the boost is monotone only up to the 0.95 cap. -/
theorem C2_boost_amended (svc : Service) (jitter : String → ℚ)
    (events : List Event) (xs : List (List Int))
    (ht : svc.is_trained = true)
    (hx : prepareX svc.label_encoders ((preprocess_data events).map Prod.snd) = some xs)
    (hdeg : ¬(qMax (xs.map svc.decision) - qMin (xs.map svc.decision) < 1/100)) :
    ∀ i, i < (boostedOf svc jitter events xs).length →
      outlierPred svc (xs.getD i []) = -1 →
      min (95/100) ((blendedOf svc jitter events xs).getD i 0) ≤
        (boostedOf svc jitter events xs).getD i 0 ∧
      (boostedOf svc jitter events xs).getD i 0 ≤ 95/100 := by
  intro i hi hpred
  have hlb : i < (blendedOf svc jitter events xs).length := by
    apply lt_of_lt_of_le hi
    unfold boostedOf boostLists
    rw [List.length_zipWith]
    exact min_le_left _ _
  have hpl : i < (xs.map (outlierPred svc)).length := by
    apply lt_of_lt_of_le hi
    unfold boostedOf boostLists
    rw [List.length_zipWith]
    exact min_le_right _ _
  have hxi : i < xs.length := by
    rw [List.length_map] at hpl
    exact hpl
  have hbo : (boostedOf svc jitter events xs).getD i 0 =
      boostOne ((blendedOf svc jitter events xs).getD i 0)
        ((xs.map (outlierPred svc)).getD i 1) := by
    unfold boostedOf boostLists at hi ⊢
    exact getD_zipWith _ _ i hi 0 0 1
  have hpi : (xs.map (outlierPred svc)).getD i 1 = outlierPred svc (xs.getD i []) :=
    getD_map xs i hxi 1 []
  rw [hpi, hpred] at hbo
  have hmem : (blendedOf svc jitter events xs).getD i 0 ∈
      blendedOf svc jitter events xs := getD_mem _ i hlb 0
  obtain ⟨hb0, hb1⟩ := blend_mem_bounds jitter svc events xs hdeg _ hmem
  rw [hbo]
  unfold boostOne
  rw [if_pos rfl]
  constructor
  · apply le_min (min_le_left _ _)
    apply le_trans (min_le_right _ _)
    nlinarith
  · exact min_le_left _ _

theorem C2_witness :
    min (95/100) ((blendedOf svcC2 jitter0 evs2 xs2).getD 0 0) ≤
      (boostedOf svcC2 jitter0 evs2 xs2).getD 0 0 ∧
    (boostedOf svcC2 jitter0 evs2 xs2).getD 0 0 ≤ 95/100 :=
  C2_boost_amended svcC2 jitter0 evs2 xs2 rfl svcC2_prepare svcC2_nondeg 0
    svcC2_len svcC2_pred0

